import Mathlib

/-!
Verification development for `pywick/models/segmentation/testnets/psanet.py`.

The file shallowly embeds the PSANet point-wise spatial attention network:
rank-4 / rank-3 tensors are modelled as shape data together with a total
value function over natural indices (entries outside the shape are
irrelevant and never inspected by the operations below on valid indices),
values are exact rationals, and fallible tensor operations (shape-checked
`view`, `bmm`, `cat`) return `Option`.  The real exponential used by
`torch.softmax` is transcendental, so it is abstracted as a function
parameter `e : ℚ → ℚ`; theorems that need it assume `e` is positive, which
holds for the real exponential.
-/

/-- A rank-4 tensor (batch, channels, height, width) with rational entries.
The value function is total; entries at indices outside the shape are
never used by the operations below. -/
structure Tensor4 where
  n : ℕ
  c : ℕ
  h : ℕ
  w : ℕ
  data : ℕ → ℕ → ℕ → ℕ → ℚ

/-- A rank-3 tensor (batch, channels, positions), the result of flattening
the two spatial dimensions of a rank-4 tensor. -/
structure Tensor3 where
  n : ℕ
  c : ℕ
  l : ℕ
  data : ℕ → ℕ → ℕ → ℚ

/-- Number of elements of a rank-4 tensor. -/
def Tensor4.numel (t : Tensor4) : ℕ := t.n * t.c * (t.h * t.w)

/-- Number of elements of a rank-3 tensor. -/
def Tensor3.numel (t : Tensor3) : ℕ := t.n * t.c * t.l

/-- Row-major flat indexing into a rank-4 tensor. -/
def Tensor4.flat (t : Tensor4) (f : ℕ) : ℚ :=
  t.data (f / (t.c * (t.h * t.w))) (f / (t.h * t.w) % t.c) (f / t.w % t.h) (f % t.w)

/-- Row-major flat indexing into a rank-3 tensor. -/
def Tensor3.flat (t : Tensor3) (f : ℕ) : ℚ :=
  t.data (f / (t.c * t.l)) (f / t.l % t.c) (f % t.l)

/-- Model of `t.view(a, b, -1)`: reinterpret the flat row-major data with
the last dimension inferred.  As in torch, the element count must be an
exact multiple of `a * b` and the inferred dimension must be determined,
otherwise the reshape fails. -/
def Tensor4.view3 (t : Tensor4) (a b : ℕ) : Option Tensor3 :=
  if 0 < a * b ∧ a * b * (t.numel / (a * b)) = t.numel then
    some ⟨a, b, t.numel / (a * b),
      fun i j k => t.flat ((i * b + j) * (t.numel / (a * b)) + k)⟩
  else none

/-- Model of `t.view(a, b, c, d)` on a rank-3 tensor: all dimensions are
explicit, so the element counts must agree exactly. -/
def Tensor3.view4 (t : Tensor3) (a b c d : ℕ) : Option Tensor4 :=
  if a * b * c * d = t.numel then
    some ⟨a, b, c, d, fun bi o i j => t.flat (((bi * b + o) * c + i) * d + j)⟩
  else none

/-- Model of `torch.cat([a, b], dim=1)`: channel-wise concatenation; all
other dimensions must agree. -/
def cat4 (a b : Tensor4) : Option Tensor4 :=
  if a.n = b.n ∧ a.h = b.h ∧ a.w = b.w then
    some ⟨a.n, a.c + b.c, a.h, a.w,
      fun bi j i k => if j < a.c then a.data bi j i k else b.data bi (j - a.c) i k⟩
  else none

/-- Model of `torch.bmm`: batched matrix multiplication of a `(n, c, l)`
tensor with a `(n, l, l2)` tensor; fails on a batch or inner-dimension
mismatch. -/
def bmm (a b : Tensor3) : Option Tensor3 :=
  if a.n = b.n ∧ a.l = b.c then
    some ⟨a.n, a.c, b.l,
      fun bi r k => ∑ j ∈ Finset.range a.l, a.data bi r j * b.data bi j k⟩
  else none

/-- Model of `torch.softmax(t, dim=1)` on a rank-3 tensor, with the real
exponential abstracted as the parameter `e`. -/
def softmaxDim1 (e : ℚ → ℚ) (t : Tensor3) : Tensor3 :=
  ⟨t.n, t.c, t.l,
    fun i j k => e (t.data i j k) / ∑ j' ∈ Finset.range t.c, e (t.data i j' k)⟩

/-- Zero-padded spatial read used by the convolution: index `(i, j)` into
the input padded with `p` zeros on each spatial border. -/
def Tensor4.padGet (t : Tensor4) (p b c i j : ℕ) : ℚ :=
  if p ≤ i ∧ p ≤ j ∧ i - p < t.h ∧ j - p < t.w then t.data b c (i - p) (j - p) else 0

/-- Modelled from the spec: `nn.Conv2d` is external to this file.  A
square-kernel, stride-1, zero-padded 2-d convolution with learned kernel
and bias; it fails when the input channel count disagrees with the layer
configuration or the padded input is smaller than the kernel. -/
structure Conv2d where
  inC : ℕ
  outC : ℕ
  k : ℕ
  pad : ℕ
  weight : ℕ → ℕ → ℕ → ℕ → ℚ
  bias : ℕ → ℚ

/-- Forward computation of the convolution layer. -/
def Conv2d.apply (m : Conv2d) (x : Tensor4) : Option Tensor4 :=
  if x.c = m.inC ∧ m.k ≤ x.h + 2 * m.pad ∧ m.k ≤ x.w + 2 * m.pad then
    some ⟨x.n, m.outC, x.h + 2 * m.pad + 1 - m.k, x.w + 2 * m.pad + 1 - m.k,
      fun b o i j => m.bias o +
        ∑ ci ∈ Finset.range m.inC, ∑ u ∈ Finset.range m.k, ∑ v ∈ Finset.range m.k,
          m.weight o ci u v * x.padGet m.pad b ci (i + u) (j + v)⟩
  else none

/-- Modelled from the spec: the external `_ConvBNReLU` building block is
"convolution + normalization + activation".  Batch normalization in
inference mode is a learned per-channel affine map, followed by a ReLU. -/
structure ConvBNReLU where
  conv : Conv2d
  scale : ℕ → ℚ
  shift : ℕ → ℚ

/-- Learned parameters of a `ConvBNReLU` block. -/
structure ConvBNReLUWeights where
  wt : ℕ → ℕ → ℕ → ℕ → ℚ
  s : ℕ → ℚ
  b : ℕ → ℚ

/-- Builds a `ConvBNReLU` block; the convolution carries no bias, as the
normalization absorbs it. -/
def mkConvBNReLU (ic oc k pad : ℕ) (wts : ConvBNReLUWeights) : ConvBNReLU :=
  ⟨⟨ic, oc, k, pad, wts.wt, fun _ => 0⟩, wts.s, wts.b⟩

/-- Forward computation of a `ConvBNReLU` block. -/
def ConvBNReLU.apply (m : ConvBNReLU) (x : Tensor4) : Option Tensor4 :=
  (m.conv.apply x).map fun t =>
    ⟨t.n, t.c, t.h, t.w, fun b c i j => max 0 (m.scale c * t.data b c i j + m.shift c)⟩

/-- Modelled from the spec: `nn.Dropout2d` regularization is external; in
inference mode it is the identity map. -/
def dropout2d (t : Tensor4) : Tensor4 := t

/-- Rational source coordinate of bilinear interpolation with
`align_corners=True`: output index `i` of `outL` samples maps to
`i * (inL - 1) / (outL - 1)`. -/
def srcIndex (inL outL i : ℕ) : ℚ :=
  if outL ≤ 1 then 0 else (i : ℚ) * (((inL : ℚ) - 1) / ((outL : ℚ) - 1))

/-- Modelled from the spec: `F.interpolate(mode='bilinear',
align_corners=True)` is external; bilinear resampling of the spatial grid
to the target size. -/
def interpolate (t : Tensor4) (oh ow : ℕ) : Tensor4 :=
  ⟨t.n, t.c, oh, ow, fun b c i j =>
    let sy := srcIndex t.h oh i
    let sx := srcIndex t.w ow j
    let y0 := (Int.floor sy).toNat
    let x0 := (Int.floor sx).toNat
    let y1 := min (y0 + 1) (t.h - 1)
    let x1 := min (x0 + 1) (t.w - 1)
    let dy := sy - (y0 : ℚ)
    let dx := sx - (x0 : ℚ)
    (1 - dy) * ((1 - dx) * t.data b c y0 x0 + dx * t.data b c y0 x1) +
      dy * ((1 - dx) * t.data b c y1 x0 + dx * t.data b c y1 x1)⟩

/-- The `_AttentionGeneration` module: a channel-reducing `_ConvBNReLU`, a
two-layer attention stack (`_ConvBNReLU` then a bias-free 1x1 `Conv2d`),
and the recorded reduced channel count. -/
structure AttentionGeneration where
  conv_reduce : ConvBNReLU
  att1 : ConvBNReLU
  att2 : Conv2d
  reduced_channels : ℕ

/-- Learned parameters of an `_AttentionGeneration` module. -/
structure AGWeights where
  reduce : ConvBNReLUWeights
  a1 : ConvBNReLUWeights
  a2 : ℕ → ℕ → ℕ → ℕ → ℚ

/-- Mirrors `_AttentionGeneration.__init__`: `conv_reduce` is a 1x1
`_ConvBNReLU` from `in_channels` to `reduced_channels`; `attention` is a
1x1 `_ConvBNReLU` on `reduced_channels` followed by a bias-free 1x1
`Conv2d` to `out_channels`. -/
def mkAttentionGeneration (in_channels reduced_channels out_channels : ℕ)
    (wts : AGWeights) : AttentionGeneration :=
  ⟨mkConvBNReLU in_channels reduced_channels 1 0 wts.reduce,
   mkConvBNReLU reduced_channels reduced_channels 1 0 wts.a1,
   ⟨reduced_channels, out_channels, 1, 0, wts.a2, fun _ => 0⟩,
   reduced_channels⟩

/-- The `self.attention` sequential stack of `_AttentionGeneration`. -/
def AttentionGeneration.attention (m : AttentionGeneration) (t : Tensor4) :
    Option Tensor4 :=
  (m.att1.apply t).bind fun u => m.att2.apply u

/-- Mirrors `_AttentionGeneration.forward`: reduce channels, compute the
attention tensor, flatten both, normalize the attention with a softmax
over dim 1, batch-multiply, and reshape back to spatial form. -/
def AttentionGeneration.forward (e : ℚ → ℚ) (m : AttentionGeneration)
    (x : Tensor4) : Option Tensor4 :=
  (m.conv_reduce.apply x).bind fun reduce_x =>
  (m.attention reduce_x).bind fun a =>
  (a.view3 a.n a.c).bind fun av =>
  (reduce_x.view3 a.n m.reduced_channels).bind fun rv =>
  (bmm rv (softmaxDim1 e av)).bind fun fm =>
  fm.view4 a.n m.reduced_channels a.h a.w

/-- The `_PointwiseSpatialAttention` module: two independent
`_AttentionGeneration` instances. -/
structure PointwiseSpatialAttention where
  collect_attention : AttentionGeneration
  distribute_attention : AttentionGeneration

/-- Mirrors `_PointwiseSpatialAttention.__init__`: `reduced_channels` is
fixed to 512 and each direction owns an independent weight bundle. -/
def mkPointwiseSpatialAttention (in_channels out_channels : ℕ)
    (wc wd : AGWeights) : PointwiseSpatialAttention :=
  ⟨mkAttentionGeneration in_channels 512 out_channels wc,
   mkAttentionGeneration in_channels 512 out_channels wd⟩

/-- Mirrors `_PointwiseSpatialAttention.forward`: run both directions on
the same input and concatenate along channels. -/
def PointwiseSpatialAttention.forward (e : ℚ → ℚ)
    (m : PointwiseSpatialAttention) (x : Tensor4) : Option Tensor4 :=
  (m.collect_attention.forward e x).bind fun collect_fm =>
  (m.distribute_attention.forward e x).bind fun distribute_fm =>
  cat4 collect_fm distribute_fm

/-- The `_PSAHead` module: the pointwise spatial attention, the fusion
convolution `conv_post`, and the two-stage projection (the dropout
between the stages is the identity in inference mode). -/
structure PSAHead where
  psa : PointwiseSpatialAttention
  conv_post : ConvBNReLU
  project1 : ConvBNReLU
  project2 : Conv2d

/-- Learned parameters of a `_PSAHead`. -/
structure PSAHeadWeights where
  collect : AGWeights
  distribute : AGWeights
  post : ConvBNReLUWeights
  proj : ConvBNReLUWeights
  cls : ℕ → ℕ → ℕ → ℕ → ℚ
  clsBias : ℕ → ℚ

/-- Mirrors `_PSAHead.__init__`: the attention `out_channels` is
hard-coded to 3600, `conv_post` fuses 1024 channels back to 2048, and the
projection is a 3x3 `_ConvBNReLU` from 4096 to 512 followed by dropout
and a 1x1 `Conv2d` to `nclass`. -/
def mkPSAHead (nclass : ℕ) (wts : PSAHeadWeights) : PSAHead :=
  ⟨mkPointwiseSpatialAttention 2048 3600 wts.collect wts.distribute,
   mkConvBNReLU 1024 2048 1 0 wts.post,
   mkConvBNReLU 4096 512 3 1 wts.proj,
   ⟨512, nclass, 1, 0, wts.cls, wts.clsBias⟩⟩

/-- Mirrors `_PSAHead.forward`: attention, fusion convolution,
concatenation with the input, and projection. -/
def PSAHead.forward (e : ℚ → ℚ) (m : PSAHead) (x : Tensor4) : Option Tensor4 :=
  (m.psa.forward e x).bind fun global_feature =>
  (m.conv_post.apply global_feature).bind fun out =>
  (cat4 x out).bind fun out2 =>
  (m.project1.apply out2).bind fun p =>
  m.project2.apply (dropout2d p)

/-- Output of `PSANet.forward`: a single primary tensor, or the ordered
pair (primary, auxiliary) when the auxiliary branch is enabled. -/
inductive PSAOutput where
  | single (t : Tensor4)
  | pair (primary auxiliary : Tensor4)

/-- The `PSANet` model.  The dilated ResNet backbone (`base_forward`) and
the auxiliary `_FCNHead` are external to this file and are modelled from
the spec as opaque functions: the backbone produces the four multi-scale
feature maps (c1, c2, c3, c4), and the auxiliary head maps a feature map
to per-class scores, failing on a shape mismatch. -/
structure PSANet where
  aux : Bool
  base_forward : Tensor4 → Tensor4 × Tensor4 × Tensor4 × Tensor4
  head : PSAHead
  auxlayer : Tensor4 → Option Tensor4

/-- Mirrors `PSANet.__init__`: the head is a `_PSAHead` for `nclass`
classes; the auxiliary layer is used only when `aux` is set. -/
def mkPSANet (nclass : ℕ) (aux : Bool)
    (base : Tensor4 → Tensor4 × Tensor4 × Tensor4 × Tensor4)
    (wts : PSAHeadWeights) (auxl : Tensor4 → Option Tensor4) : PSANet :=
  ⟨aux, base, mkPSAHead nclass wts, auxl⟩

/-- Mirrors `PSANet.forward`: record the input spatial size, run the
backbone, apply the head to c4, upsample with bilinear interpolation and
aligned corners, and when `aux` is set also run the auxiliary head on c3,
upsample it likewise, and return the ordered pair. -/
def PSANet.forward (e : ℚ → ℚ) (m : PSANet) (x : Tensor4) : Option PSAOutput :=
  let c3 := (m.base_forward x).2.2.1
  let c4 := (m.base_forward x).2.2.2
  (m.head.forward e c4).bind fun hx =>
  let primary := interpolate hx x.h x.w
  if m.aux then
    (m.auxlayer c3).bind fun auxout =>
      some (PSAOutput.pair primary (interpolate auxout x.h x.w))
  else
    some (PSAOutput.single primary)

/-- The attention computation as the spec words it: flatten the spatial
dimensions of the attention tensor and of the channel-reduced feature map
(each with its own leading dimensions), softmax-normalize the attention,
batch-multiply the reduced map by the normalized attention, and reshape
the product back to `(N, reduced_channels, H, W)` taken from the input. -/
def attentionGenerationSpec (e : ℚ → ℚ) (m : AttentionGeneration)
    (x : Tensor4) : Option Tensor4 :=
  (m.conv_reduce.apply x).bind fun reduced =>
  (m.attention reduced).bind fun att =>
  (att.view3 att.n att.c).bind fun attFlat =>
  (reduced.view3 reduced.n reduced.c).bind fun redFlat =>
  (bmm redFlat (softmaxDim1 e attFlat)).bind fun prod =>
  prod.view4 x.n reduced.c x.h x.w

/-- Shape of the primary output tensor of a forward result. -/
def primaryShape : PSAOutput → ℕ × ℕ × ℕ × ℕ
  | PSAOutput.single t => (t.n, t.c, t.h, t.w)
  | PSAOutput.pair t _ => (t.n, t.c, t.h, t.w)

/-- A concrete positive stand-in for the exponential, used to instantiate
theorems at concrete inputs. -/
def expOne : ℚ → ℚ := fun _ => 1

/-- All-zero learned parameters for a `ConvBNReLU` block. -/
def zeroCBW : ConvBNReLUWeights := ⟨fun _ _ _ _ => 0, fun _ => 0, fun _ => 0⟩

/-- All-zero learned parameters for an `_AttentionGeneration` module. -/
def zeroAGW : AGWeights := ⟨zeroCBW, zeroCBW, fun _ _ _ _ => 0⟩

/-- All-zero learned parameters for a `_PSAHead`. -/
def zeroHeadW : PSAHeadWeights :=
  ⟨zeroAGW, zeroAGW, zeroCBW, zeroCBW, fun _ _ _ _ => 0, fun _ => 0⟩

/-- Default rank-4 tensor (used only as an `Option.getD` fallback). -/
def dT4 : Tensor4 := ⟨0, 0, 0, 0, fun _ _ _ _ => 0⟩

/-- Default rank-3 tensor (used only as an `Option.getD` fallback). -/
def dT3 : Tensor3 := ⟨0, 0, 0, fun _ _ _ => 0⟩

/-- Modelled from the spec: the dilated ResNet backbone is external and
treated as a black box producing multi-scale feature maps.  With output
stride 8, the two deepest maps c3 and c4 carry 1024 and 2048 channels at
one eighth of the input resolution. -/
def demoBase : Tensor4 → Tensor4 × Tensor4 × Tensor4 × Tensor4 := fun x =>
  (⟨x.n, 256, x.h / 4, x.w / 4, fun _ _ _ _ => 0⟩,
   ⟨x.n, 512, x.h / 8, x.w / 8, fun _ _ _ _ => 0⟩,
   ⟨x.n, 1024, x.h / 8, x.w / 8, fun _ _ _ _ => 0⟩,
   ⟨x.n, 2048, x.h / 8, x.w / 8, fun _ _ _ _ => 0⟩)

/-- The demo input of the source's `__main__`: a `(1, 3, 480, 480)`
batch; the random entries are irrelevant to shape facts and are taken to
be zero. -/
def img480 : Tensor4 := ⟨1, 3, 480, 480, fun _ _ _ _ => 0⟩

/-- An input whose sides are multiples of the backbone stride 8 but whose
c4 feature map has 8 * 8 = 64 spatial positions rather than 3600. -/
def img64 : Tensor4 := ⟨1, 3, 64, 64, fun _ _ _ _ => 0⟩

/-- Concrete model mirroring `get_psanet_resnet50()` with the default
`num_classes = 1` and no auxiliary branch. -/
def psanet50demo : PSANet := mkPSANet 1 false demoBase zeroHeadW fun _ => none

/-- A deepest feature map of the shape the hard-coded attention size
expects: `(1, 2048, 60, 60)`. -/
def feat60 : Tensor4 := ⟨1, 2048, 60, 60, fun _ _ _ _ => 0⟩

/-- Concrete `_AttentionGeneration` instance with unit channel sizes. -/
def tinyAG : AttentionGeneration := mkAttentionGeneration 1 1 1 zeroAGW

/-- Concrete `(1, 1, 1, 1)` input tensor. -/
def tinyX : Tensor4 := ⟨1, 1, 1, 1, fun _ _ _ _ => 0⟩

/-- The channel-reduced map `tinyAG` computes on `tinyX`. -/
def tinyReduce : Tensor4 := (tinyAG.conv_reduce.apply tinyX).getD dT4

/-- The attention tensor `tinyAG` computes on `tinyX`. -/
def tinyAtt : Tensor4 := (tinyAG.attention tinyReduce).getD dT4

/-- The flattened attention tensor `tinyAG` computes on `tinyX`. -/
def tinyAv : Tensor3 := (tinyAtt.view3 tinyAtt.n tinyAtt.c).getD dT3

/-- A concrete `_PSAHead`-shaped record with small layer sizes, used to
instantiate theorems that hold for any head. -/
def tinyHead : PSAHead :=
  ⟨mkPointwiseSpatialAttention 1 1 zeroAGW zeroAGW,
   mkConvBNReLU 1024 4 1 0 zeroCBW,
   mkConvBNReLU 5 2 3 1 zeroCBW,
   ⟨2, 3, 1, 0, fun _ _ _ _ => 0, fun _ => 0⟩⟩

/-- A backbone stub returning `tinyX` at every scale. -/
def tinyBase : Tensor4 → Tensor4 × Tensor4 × Tensor4 × Tensor4 :=
  fun _ => (tinyX, tinyX, tinyX, tinyX)

/-- The head output on `tinyX`. -/
def tinyP : Tensor4 := (tinyHead.forward expOne tinyX).getD dT4

/-- Concrete network with the auxiliary branch enabled. -/
def tinyNetTrue : PSANet := ⟨true, tinyBase, tinyHead, fun t => some t⟩

/-- Concrete network with the auxiliary branch disabled. -/
def tinyNetFalse : PSANet := ⟨false, tinyBase, tinyHead, fun t => some t⟩

/-! Helper lemmas computing each tensor operation under the shape
conditions that arise inside the PSANet forward pass. -/

/-- A 1x1 unpadded convolution preserves batch and spatial dimensions and
maps the channel count to `outC`. -/
theorem conv2d_1x1_apply (ic oc : ℕ) (wt : ℕ → ℕ → ℕ → ℕ → ℚ) (bs : ℕ → ℚ)
    (x : Tensor4) (hc : x.c = ic) (hh : 0 < x.h) (hw : 0 < x.w) :
    ∃ y, Conv2d.apply ⟨ic, oc, 1, 0, wt, bs⟩ x = some y ∧
      y.n = x.n ∧ y.c = oc ∧ y.h = x.h ∧ y.w = x.w := by
  unfold Conv2d.apply
  rw [if_pos ⟨hc, by show (1 : ℕ) ≤ x.h + 2 * 0; omega,
    by show (1 : ℕ) ≤ x.w + 2 * 0; omega⟩]
  exact ⟨_, rfl, rfl, rfl, by show x.h + 2 * 0 + 1 - 1 = x.h; omega,
    by show x.w + 2 * 0 + 1 - 1 = x.w; omega⟩

/-- A 3x3 convolution with padding 1 preserves batch and spatial
dimensions and maps the channel count to `outC`. -/
theorem conv2d_3x3_apply (ic oc : ℕ) (wt : ℕ → ℕ → ℕ → ℕ → ℚ) (bs : ℕ → ℚ)
    (x : Tensor4) (hc : x.c = ic) (hh : 0 < x.h) (hw : 0 < x.w) :
    ∃ y, Conv2d.apply ⟨ic, oc, 3, 1, wt, bs⟩ x = some y ∧
      y.n = x.n ∧ y.c = oc ∧ y.h = x.h ∧ y.w = x.w := by
  unfold Conv2d.apply
  rw [if_pos ⟨hc, by show (3 : ℕ) ≤ x.h + 2 * 1; omega,
    by show (3 : ℕ) ≤ x.w + 2 * 1; omega⟩]
  exact ⟨_, rfl, rfl, rfl, by show x.h + 2 * 1 + 1 - 3 = x.h; omega,
    by show x.w + 2 * 1 + 1 - 3 = x.w; omega⟩

/-- The `ConvBNReLU` block succeeds whenever its convolution does, and the
per-channel normalization and activation preserve the shape. -/
theorem convBNReLU_apply_of_conv (m : ConvBNReLU) (x y : Tensor4)
    (hy : m.conv.apply x = some y) :
    ∃ z, m.apply x = some z ∧ z.n = y.n ∧ z.c = y.c ∧ z.h = y.h ∧ z.w = y.w := by
  refine ⟨⟨y.n, y.c, y.h, y.w,
    fun b c i j => max 0 (m.scale c * y.data b c i j + m.shift c)⟩,
    ?_, rfl, rfl, rfl, rfl⟩
  rw [ConvBNReLU.apply, hy]
  rfl

/-- A `ConvBNReLU` block built with a 1x1 kernel behaves like the 1x1
convolution on shapes. -/
theorem convBNReLU_1x1_apply (ic oc : ℕ) (wts : ConvBNReLUWeights)
    (x : Tensor4) (hc : x.c = ic) (hh : 0 < x.h) (hw : 0 < x.w) :
    ∃ y, (mkConvBNReLU ic oc 1 0 wts).apply x = some y ∧
      y.n = x.n ∧ y.c = oc ∧ y.h = x.h ∧ y.w = x.w := by
  obtain ⟨y, hy, h1, h2, h3, h4⟩ :=
    conv2d_1x1_apply ic oc wts.wt (fun _ => 0) x hc hh hw
  obtain ⟨z, hz, g1, g2, g3, g4⟩ :=
    convBNReLU_apply_of_conv (mkConvBNReLU ic oc 1 0 wts) x y hy
  exact ⟨z, hz, g1.trans h1, g2.trans h2, g3.trans h3, g4.trans h4⟩

/-- A `ConvBNReLU` block built with a 3x3 kernel and padding 1 behaves
like the padded 3x3 convolution on shapes. -/
theorem convBNReLU_3x3_apply (ic oc : ℕ) (wts : ConvBNReLUWeights)
    (x : Tensor4) (hc : x.c = ic) (hh : 0 < x.h) (hw : 0 < x.w) :
    ∃ y, (mkConvBNReLU ic oc 3 1 wts).apply x = some y ∧
      y.n = x.n ∧ y.c = oc ∧ y.h = x.h ∧ y.w = x.w := by
  obtain ⟨y, hy, h1, h2, h3, h4⟩ :=
    conv2d_3x3_apply ic oc wts.wt (fun _ => 0) x hc hh hw
  obtain ⟨z, hz, g1, g2, g3, g4⟩ :=
    convBNReLU_apply_of_conv (mkConvBNReLU ic oc 3 1 wts) x y hy
  exact ⟨z, hz, g1.trans h1, g2.trans h2, g3.trans h3, g4.trans h4⟩

/-- Flattening the spatial dimensions via `view(n, c, -1)` with the
tensor's own leading dimensions always succeeds and yields `h * w`
positions. -/
theorem view3_self (t : Tensor4) (a b : ℕ) (h1 : a = t.n) (h2 : b = t.c)
    (hpos : 0 < a * b) :
    t.view3 a b = some ⟨a, b, t.h * t.w,
      fun i j k => t.flat ((i * b + j) * (t.h * t.w) + k)⟩ := by
  subst h1; subst h2
  have hdiv : t.numel / (t.n * t.c) = t.h * t.w :=
    Nat.mul_div_cancel_left _ hpos
  unfold Tensor4.view3
  rw [if_pos ⟨hpos, by rw [hdiv]; rfl⟩]
  simp only [hdiv]

/-- Reshaping a `(n, c, h * w)` rank-3 tensor back to `(n, c, h, w)`
always succeeds. -/
theorem view4_eq (t : Tensor3) (a b c d : ℕ) (h1 : a = t.n) (h2 : b = t.c)
    (h3 : t.l = c * d) :
    t.view4 a b c d = some ⟨a, b, c, d,
      fun bi o i j => t.flat (((bi * b + o) * c + i) * d + j)⟩ := by
  subst h1; subst h2
  unfold Tensor3.view4
  rw [if_pos (by rw [Tensor3.numel, h3, Nat.mul_assoc])]

/-- Batched matrix multiplication succeeds exactly on matching batch and
inner dimensions. -/
theorem bmm_eq (a b : Tensor3) (h1 : b.n = a.n) (h2 : b.c = a.l) :
    bmm a b = some ⟨a.n, a.c, b.l,
      fun bi r k => ∑ j ∈ Finset.range a.l, a.data bi r j * b.data bi j k⟩ := by
  unfold bmm
  rw [if_pos ⟨h1.symm, h2.symm⟩]

/-- Batched matrix multiplication fails on an inner-dimension mismatch. -/
theorem bmm_none (a b : Tensor3) (h2 : a.l ≠ b.c) : bmm a b = none := by
  unfold bmm
  rw [if_neg (by rintro ⟨-, h⟩; exact h2 h)]

/-- Channel-wise concatenation of tensors agreeing on every other
dimension succeeds and adds the channel counts. -/
theorem cat4_eq (a b : Tensor4) (h1 : a.n = b.n) (h2 : a.h = b.h)
    (h3 : a.w = b.w) :
    cat4 a b = some ⟨a.n, a.c + b.c, a.h, a.w,
      fun bi j i k => if j < a.c then a.data bi j i k else b.data bi (j - a.c) i k⟩ := by
  unfold cat4
  rw [if_pos ⟨h1, h2, h3⟩]

/-- Each column of a softmax-normalized tensor sums to 1 over the
normalized dimension, for any positive exponential model. -/
theorem softmaxDim1_col_sum (e : ℚ → ℚ) (he : ∀ q, 0 < e q) (t : Tensor3)
    (hc : 0 < t.c) (i k : ℕ) :
    ∑ j ∈ Finset.range t.c, (softmaxDim1 e t).data i j k = 1 := by
  show ∑ j ∈ Finset.range t.c,
    e (t.data i j k) / ∑ j' ∈ Finset.range t.c, e (t.data i j' k) = 1
  rw [← Finset.sum_div]
  exact div_self (ne_of_gt (Finset.sum_pos (fun j _ => he _)
    (Finset.nonempty_range_iff.mpr (Nat.pos_iff_ne_zero.mp hc))))

/-- The attention stack of a constructed `_AttentionGeneration` maps a
`reduced_channels`-channel map to an `out_channels`-channel map of the
same batch and spatial size. -/
theorem ag_attention_apply (ic red oc : ℕ) (wts : AGWeights) (r : Tensor4)
    (hc : r.c = red) (hh : 0 < r.h) (hw : 0 < r.w) :
    ∃ a, (mkAttentionGeneration ic red oc wts).attention r = some a ∧
      a.n = r.n ∧ a.c = oc ∧ a.h = r.h ∧ a.w = r.w := by
  obtain ⟨u, hu, u1, u2, u3, u4⟩ := convBNReLU_1x1_apply red red wts.a1 r hc hh hw
  obtain ⟨a, ha, b1, b2, b3, b4⟩ := conv2d_1x1_apply red oc wts.a2 (fun _ => 0) u u2
    (by rw [u3]; exact hh) (by rw [u4]; exact hw)
  have e1 : (mkAttentionGeneration ic red oc wts).att1 = mkConvBNReLU red red 1 0 wts.a1 := rfl
  have e2 : (mkAttentionGeneration ic red oc wts).att2 =
    ⟨red, oc, 1, 0, wts.a2, fun _ => 0⟩ := rfl
  refine ⟨a, ?_, b1.trans u1, b2, b3.trans u3, b4.trans u4⟩
  simp only [AttentionGeneration.attention, e1, e2, hu, Option.some_bind, ha]

/-- Full computation of `_AttentionGeneration.forward` when the number of
spatial positions of the input matches the configured attention channel
count: the result exists and has shape `(N, reduced_channels, H, W)`. -/
theorem ag_forward_some (e : ℚ → ℚ) (ic red oc : ℕ) (wts : AGWeights)
    (x : Tensor4) (hc : x.c = ic) (hn : 0 < x.n) (hred : 0 < red)
    (hh : 0 < x.h) (hw : 0 < x.w) (hhw : x.h * x.w = oc) :
    ∃ t, (mkAttentionGeneration ic red oc wts).forward e x = some t ∧
      t.n = x.n ∧ t.c = red ∧ t.h = x.h ∧ t.w = x.w := by
  obtain ⟨r, hr, r1, r2, r3, r4⟩ := convBNReLU_1x1_apply ic red wts.reduce x hc hh hw
  obtain ⟨a, ha, a1, a2, a3, a4⟩ := ag_attention_apply ic red oc wts r r2
    (by rw [r3]; exact hh) (by rw [r4]; exact hw)
  have hoc : 0 < oc := hhw ▸ Nat.mul_pos hh hw
  have hcr : (mkAttentionGeneration ic red oc wts).conv_reduce =
    mkConvBNReLU ic red 1 0 wts.reduce := rfl
  have hrc : (mkAttentionGeneration ic red oc wts).reduced_channels = red := rfl
  obtain ⟨d1, hav⟩ : ∃ d, a.view3 a.n a.c = some ⟨a.n, a.c, a.h * a.w, d⟩ :=
    ⟨_, view3_self a a.n a.c rfl rfl (by rw [a1, r1, a2]; exact Nat.mul_pos hn hoc)⟩
  obtain ⟨d2, hrv⟩ : ∃ d, r.view3 a.n red = some ⟨a.n, red, r.h * r.w, d⟩ :=
    ⟨_, view3_self r a.n red a1 r2.symm (by rw [a1, r1]; exact Nat.mul_pos hn hred)⟩
  obtain ⟨d3, hbm⟩ : ∃ d, bmm ⟨a.n, red, r.h * r.w, d2⟩
      (softmaxDim1 e ⟨a.n, a.c, a.h * a.w, d1⟩) = some ⟨a.n, red, a.h * a.w, d⟩ :=
    ⟨_, bmm_eq _ _ rfl (by show a.c = r.h * r.w; rw [a2, r3, r4]; exact hhw.symm)⟩
  obtain ⟨d4, hvw⟩ : ∃ d, (⟨a.n, red, a.h * a.w, d3⟩ : Tensor3).view4 a.n red a.h a.w =
      some ⟨a.n, red, a.h, a.w, d⟩ :=
    ⟨_, view4_eq _ a.n red a.h a.w rfl rfl rfl⟩
  refine ⟨⟨a.n, red, a.h, a.w, d4⟩, ?_, ?_, ?_, ?_, ?_⟩
  · simp only [AttentionGeneration.forward, hcr, hrc, hr, ha, hav, hrv, hbm, hvw,
      Option.some_bind]
  · show a.n = x.n
    rw [a1, r1]
  · rfl
  · show a.h = x.h
    rw [a3, r3]
  · show a.w = x.w
    rw [a4, r4]

/-- When the number of spatial positions differs from the configured
attention channel count, the batched matrix multiplication inside
`_AttentionGeneration.forward` is malformed and the forward computation
fails. -/
theorem ag_forward_none (e : ℚ → ℚ) (ic red oc : ℕ) (wts : AGWeights)
    (x : Tensor4) (hc : x.c = ic) (hn : 0 < x.n) (hred : 0 < red) (hoc : 0 < oc)
    (hh : 0 < x.h) (hw : 0 < x.w) (hhw : x.h * x.w ≠ oc) :
    (mkAttentionGeneration ic red oc wts).forward e x = none := by
  obtain ⟨r, hr, r1, r2, r3, r4⟩ := convBNReLU_1x1_apply ic red wts.reduce x hc hh hw
  obtain ⟨a, ha, a1, a2, a3, a4⟩ := ag_attention_apply ic red oc wts r r2
    (by rw [r3]; exact hh) (by rw [r4]; exact hw)
  have hcr : (mkAttentionGeneration ic red oc wts).conv_reduce =
    mkConvBNReLU ic red 1 0 wts.reduce := rfl
  have hrc : (mkAttentionGeneration ic red oc wts).reduced_channels = red := rfl
  obtain ⟨d1, hav⟩ : ∃ d, a.view3 a.n a.c = some ⟨a.n, a.c, a.h * a.w, d⟩ :=
    ⟨_, view3_self a a.n a.c rfl rfl
      (by rw [a1, r1, a2]; exact Nat.mul_pos hn hoc)⟩
  obtain ⟨d2, hrv⟩ : ∃ d, r.view3 a.n red = some ⟨a.n, red, r.h * r.w, d⟩ :=
    ⟨_, view3_self r a.n red a1 r2.symm (by rw [a1, r1]; exact Nat.mul_pos hn hred)⟩
  have hbm : bmm ⟨a.n, red, r.h * r.w, d2⟩
      (softmaxDim1 e ⟨a.n, a.c, a.h * a.w, d1⟩) = none :=
    bmm_none _ _ (by show r.h * r.w ≠ a.c; rw [a2, r3, r4]; exact hhw)
  simp only [AttentionGeneration.forward, hcr, hrc, hr, ha, hav, hrv, hbm,
    Option.some_bind, Option.none_bind]

/-- Full computation of `_PointwiseSpatialAttention.forward`: both
attention directions run on the same input and their outputs concatenate
to a `(N, 2 * 512, H, W)` map. -/
theorem psa_forward_eq (e : ℚ → ℚ) (ic oc : ℕ) (wc wd : AGWeights)
    (x : Tensor4) (hc : x.c = ic) (hn : 0 < x.n) (hh : 0 < x.h) (hw : 0 < x.w)
    (hhw : x.h * x.w = oc) :
    ∃ t cf df,
      (mkPointwiseSpatialAttention ic oc wc wd).collect_attention.forward e x = some cf ∧
      (mkPointwiseSpatialAttention ic oc wc wd).distribute_attention.forward e x = some df ∧
      cat4 cf df = some t ∧
      (mkPointwiseSpatialAttention ic oc wc wd).forward e x = some t ∧
      t.n = x.n ∧ t.c = 512 + 512 ∧ t.h = x.h ∧ t.w = x.w := by
  obtain ⟨cf, hcf, c1, c2, c3, c4⟩ :=
    ag_forward_some e ic 512 oc wc x hc hn (by norm_num) hh hw hhw
  obtain ⟨df, hdf, f1, f2, f3, f4⟩ :=
    ag_forward_some e ic 512 oc wd x hc hn (by norm_num) hh hw hhw
  have hpc : (mkPointwiseSpatialAttention ic oc wc wd).collect_attention =
    mkAttentionGeneration ic 512 oc wc := rfl
  have hpd : (mkPointwiseSpatialAttention ic oc wc wd).distribute_attention =
    mkAttentionGeneration ic 512 oc wd := rfl
  obtain ⟨dc, hcat⟩ : ∃ d, cat4 cf df = some ⟨cf.n, cf.c + df.c, cf.h, cf.w, d⟩ :=
    ⟨_, cat4_eq cf df (by rw [c1, f1]) (by rw [c3, f3]) (by rw [c4, f4])⟩
  refine ⟨⟨cf.n, cf.c + df.c, cf.h, cf.w, dc⟩, cf, df, by rw [hpc]; exact hcf,
    by rw [hpd]; exact hdf, hcat, ?_, ?_, ?_, ?_, ?_⟩
  · simp only [PointwiseSpatialAttention.forward, hpc, hpd, hcf, hdf,
      Option.some_bind, hcat]
  · show cf.n = x.n
    rw [c1]
  · show cf.c + df.c = 512 + 512
    rw [c2, f2]
  · show cf.h = x.h
    rw [c3]
  · show cf.w = x.w
    rw [c4]

/-- Full computation of `_PSAHead.forward` on a 2048-channel feature map
whose spatial positions match the hard-coded attention size 3600: every
stage succeeds with the channel counts the spec describes, and the result
has `nclass` channels at the input's spatial size. -/
theorem psa_head_forward_eq (e : ℚ → ℚ) (nclass : ℕ) (W : PSAHeadWeights)
    (x : Tensor4) (hc : x.c = 2048) (hn : 0 < x.n) (hh : 0 < x.h) (hw : 0 < x.w)
    (hhw : x.h * x.w = 3600) :
    ∃ g fused cc pj t,
      (mkPSAHead nclass W).psa.forward e x = some g ∧ g.c = 512 + 512 ∧
      (mkPSAHead nclass W).conv_post.apply g = some fused ∧ fused.c = 2048 ∧
      cat4 x fused = some cc ∧ cc.c = 2048 + 2048 ∧
      (mkPSAHead nclass W).project1.apply cc = some pj ∧ pj.c = 512 ∧
      (mkPSAHead nclass W).project2.apply (dropout2d pj) = some t ∧
      (mkPSAHead nclass W).forward e x = some t ∧
      t.n = x.n ∧ t.c = nclass ∧ t.h = x.h ∧ t.w = x.w := by
  have hpsa : (mkPSAHead nclass W).psa =
    mkPointwiseSpatialAttention 2048 3600 W.collect W.distribute := rfl
  have hpost : (mkPSAHead nclass W).conv_post = mkConvBNReLU 1024 2048 1 0 W.post := rfl
  have hproj1 : (mkPSAHead nclass W).project1 = mkConvBNReLU 4096 512 3 1 W.proj := rfl
  have hproj2 : (mkPSAHead nclass W).project2 =
    ⟨512, nclass, 1, 0, W.cls, W.clsBias⟩ := rfl
  obtain ⟨g, cf, df, hcf, hdf, hcat0, hg, g1, g2, g3, g4⟩ :=
    psa_forward_eq e 2048 3600 W.collect W.distribute x hc hn hh hw hhw
  obtain ⟨fused, hfused, u1, u2, u3, u4⟩ := convBNReLU_1x1_apply 1024 2048 W.post g
    (by rw [g2]) (by rw [g3]; exact hh) (by rw [g4]; exact hw)
  obtain ⟨dcc, hcc⟩ : ∃ d, cat4 x fused = some ⟨x.n, x.c + fused.c, x.h, x.w, d⟩ :=
    ⟨_, cat4_eq x fused (by rw [u1, g1]) (by rw [u3, g3]) (by rw [u4, g4])⟩
  obtain ⟨pj, hpj, p1, p2, p3, p4⟩ := convBNReLU_3x3_apply 4096 512 W.proj
    ⟨x.n, x.c + fused.c, x.h, x.w, dcc⟩ (by show x.c + fused.c = 4096; rw [hc, u2])
    hh hw
  obtain ⟨t, ht, t1, t2, t3, t4⟩ := conv2d_1x1_apply 512 nclass W.cls W.clsBias
    (dropout2d pj) p2 (by show 0 < pj.h; rw [p3]; exact hh)
    (by show 0 < pj.w; rw [p4]; exact hw)
  refine ⟨g, fused, ⟨x.n, x.c + fused.c, x.h, x.w, dcc⟩, pj, t,
    by rw [hpsa]; exact hg, g2, by rw [hpost]; exact hfused, u2, hcc,
    by show x.c + fused.c = 2048 + 2048; rw [hc, u2], by rw [hproj1]; exact hpj, p2,
    by rw [hproj2]; exact ht, ?_, ?_, t2, ?_, ?_⟩
  · simp only [PSAHead.forward, hpsa, hpost, hproj1, hproj2, hg, hfused, hcc, hpj, ht,
      Option.some_bind]
  · show t.n = x.n
    rw [t1]
    show pj.n = x.n
    rw [p1]
  · show t.h = x.h
    rw [t3]
    show pj.h = x.h
    rw [p3]
  · show t.w = x.w
    rw [t4]
    show pj.w = x.w
    rw [p4]

/-- Full computation of `PSANet.forward` without the auxiliary branch,
when the backbone's deepest feature map c4 has 2048 channels and exactly
3600 spatial positions: the primary output exists and has `nclass`
channels at the recorded input resolution. -/
theorem psanet_forward_eq (e : ℚ → ℚ) (nclass : ℕ)
    (base : Tensor4 → Tensor4 × Tensor4 × Tensor4 × Tensor4)
    (W : PSAHeadWeights) (auxl : Tensor4 → Option Tensor4) (x : Tensor4)
    (h1 : ((base x).2.2.2).n = x.n) (hn : 0 < x.n)
    (h2 : ((base x).2.2.2).c = 2048)
    (hh : 0 < ((base x).2.2.2).h) (hw : 0 < ((base x).2.2.2).w)
    (hhw : ((base x).2.2.2).h * ((base x).2.2.2).w = 3600) :
    ∃ t, (mkPSANet nclass false base W auxl).forward e x =
        some (PSAOutput.single (interpolate t x.h x.w)) ∧
      t.c = nclass ∧ (interpolate t x.h x.w).n = x.n ∧
      (interpolate t x.h x.w).c = nclass ∧
      (interpolate t x.h x.w).h = x.h ∧ (interpolate t x.h x.w).w = x.w := by
  obtain ⟨g, fused, cc, pj, t, hg, hg2, hfus, hfus2, hcc, hcc2, hpj, hpj2, hcls, hfwd,
    t1, t2, t3, t4⟩ :=
    psa_head_forward_eq e nclass W ((base x).2.2.2) h2 (by rw [h1]; exact hn) hh hw hhw
  have hbase : (mkPSANet nclass false base W auxl).base_forward = base := rfl
  have hhead : (mkPSANet nclass false base W auxl).head = mkPSAHead nclass W := rfl
  have haux : (mkPSANet nclass false base W auxl).aux = false := rfl
  refine ⟨t, ?_, t2, ?_, t2, rfl, rfl⟩
  · simp only [PSANet.forward, hbase, hhead, hfwd, Option.some_bind, haux]
    rw [if_neg Bool.false_ne_true]
  · show t.n = x.n
    rw [t1, h1]

/-! Claim theorems. -/

/-- C1 (amended): for inputs whose deepest backbone feature map c4 has
2048 channels and exactly 3600 spatial positions (the hard-coded
attention size, e.g. a 60 x 60 grid from a 480 x 480 input at stride 8),
`PSANet.forward` returns a primary output of shape `(N, nclass, H, W)`.
For other stride-multiple input sizes the forward computation fails
instead of returning a tensor. -/
theorem psanet_valid_input_shape_amended (e : ℚ → ℚ) (nclass : ℕ)
    (base : Tensor4 → Tensor4 × Tensor4 × Tensor4 × Tensor4)
    (W : PSAHeadWeights) (auxl : Tensor4 → Option Tensor4) (x : Tensor4)
    (h1 : ((base x).2.2.2).n = x.n) (hn : 0 < x.n)
    (h2 : ((base x).2.2.2).c = 2048)
    (hh : 0 < ((base x).2.2.2).h) (hw : 0 < ((base x).2.2.2).w)
    (hhw : ((base x).2.2.2).h * ((base x).2.2.2).w = 3600) :
    ∃ t, (mkPSANet nclass false base W auxl).forward e x =
        some (PSAOutput.single t) ∧
      t.n = x.n ∧ t.c = nclass ∧ t.h = x.h ∧ t.w = x.w := by
  obtain ⟨t, hf, htc, a1, a2, a3, a4⟩ :=
    psanet_forward_eq e nclass base W auxl x h1 hn h2 hh hw hhw
  exact ⟨interpolate t x.h x.w, hf, a1, a2, a3, a4⟩

/-- C1 witness: the amended statement instantiated at a concrete
two-class model on the 480 x 480 demo input. -/
theorem psanet_valid_input_shape_amended_witness :
    (0 : ℕ) < img480.n ∧
    ∃ t, (mkPSANet 2 false demoBase zeroHeadW (fun _ => none)).forward expOne img480 =
        some (PSAOutput.single t) ∧
      t.n = img480.n ∧ t.c = 2 ∧ t.h = img480.h ∧ t.w = img480.w :=
  ⟨by decide, psanet_valid_input_shape_amended expOne 2 demoBase zeroHeadW
    (fun _ => none) img480 rfl (by decide) rfl (by decide) (by decide) (by decide)⟩

/-- C1 counterexample: the input `(1, 3, 64, 64)` has both sides
multiples of the backbone stride 8, yet `PSANet.forward` produces no
output at all: its feature map has 64 spatial positions while the
attention is hard-coded to 3600, so the batched matrix multiplication is
malformed. -/
theorem psanet_valid_input_shape_cex :
    psanet50demo.forward expOne img64 = none := rfl

/-- C10: on the demo input of shape `(1, 3, 480, 480)` the resnet50-based
model with the default single class returns a primary output of shape
`(1, nclass, 480, 480) = (1, 1, 480, 480)`. -/
theorem psanet_resnet50_480_shape :
    ∃ t, psanet50demo.forward expOne img480 = some (PSAOutput.single t) ∧
      t.n = 1 ∧ t.c = 1 ∧ t.h = 480 ∧ t.w = 480 := by
  obtain ⟨t, hf, htc, a1, a2, a3, a4⟩ := psanet_forward_eq expOne 1 demoBase zeroHeadW
    (fun _ => none) img480 rfl (by decide) rfl (by decide) (by decide) (by decide)
  exact ⟨interpolate t img480.h img480.w, hf, a1, a2, a3, a4⟩

/-- C2: on feature maps of the declared shape, `_AttentionGeneration.forward`
equals the spec's composition (flatten both tensors, softmax-normalize the
attention, batch-multiply, reshape back to `(N, reduced_channels, H, W)`),
and on accepted inputs (spatial positions equal to the configured
attention channels) it produces a `(N, reduced_channels, H, W)` map. -/
theorem attention_generation_matches_spec_pipeline (e : ℚ → ℚ)
    (ic red oc : ℕ) (wts : AGWeights) (x : Tensor4) (hc : x.c = ic)
    (hn : 0 < x.n) (hred : 0 < red) (hh : 0 < x.h) (hw : 0 < x.w) :
    (mkAttentionGeneration ic red oc wts).forward e x =
      attentionGenerationSpec e (mkAttentionGeneration ic red oc wts) x ∧
    (x.h * x.w = oc → ∃ t,
      (mkAttentionGeneration ic red oc wts).forward e x = some t ∧
      t.n = x.n ∧ t.c = red ∧ t.h = x.h ∧ t.w = x.w) := by
  obtain ⟨r, hr, r1, r2, r3, r4⟩ := convBNReLU_1x1_apply ic red wts.reduce x hc hh hw
  obtain ⟨a, ha, a1, a2, a3, a4⟩ := ag_attention_apply ic red oc wts r r2
    (by rw [r3]; exact hh) (by rw [r4]; exact hw)
  have hcr : (mkAttentionGeneration ic red oc wts).conv_reduce =
    mkConvBNReLU ic red 1 0 wts.reduce := rfl
  have hrc : (mkAttentionGeneration ic red oc wts).reduced_channels = red := rfl
  constructor
  · simp only [AttentionGeneration.forward, attentionGenerationSpec, hcr, hrc, hr, ha,
      Option.some_bind]
    rw [a1, a3, a4, r2, r1, r3, r4]
  · intro hhw
    exact ag_forward_some e ic red oc wts x hc hn hred hh hw hhw

/-- C2 witness: the pipeline equality and shape contract at the concrete
unit-size module on the `(1, 1, 1, 1)` input. -/
theorem attention_generation_matches_spec_pipeline_witness :
    tinyAG.forward expOne tinyX = attentionGenerationSpec expOne tinyAG tinyX ∧
    (tinyX.h * tinyX.w = 1 → ∃ t, tinyAG.forward expOne tinyX = some t ∧
      t.n = tinyX.n ∧ t.c = 1 ∧ t.h = tinyX.h ∧ t.w = tinyX.w) :=
  attention_generation_matches_spec_pipeline expOne 1 1 1 zeroAGW tinyX rfl
    (by decide) (by decide) (by decide) (by decide)

/-- C3: inside `_AttentionGeneration.forward`, once the attention tensor
has been flattened, every column of its softmax normalization (the
attention weight vector consumed by the batched matrix multiplication for
one output position) sums to 1 over the attended dimension, for any
positive exponential model. -/
theorem attention_softmax_columns_sum_to_one (e : ℚ → ℚ)
    (he : ∀ q, 0 < e q) (m : AttentionGeneration) (x r a : Tensor4)
    (av : Tensor3) (_hr : m.conv_reduce.apply x = some r)
    (_ha : m.attention r = some a) (hv : a.view3 a.n a.c = some av)
    (i k : ℕ) :
    ∑ j ∈ Finset.range av.c, (softmaxDim1 e av).data i j k = 1 := by
  have hc : 0 < av.c := by
    by_cases hcond : 0 < a.n * a.c ∧ a.n * a.c * (a.numel / (a.n * a.c)) = a.numel
    · rw [Tensor4.view3, if_pos hcond] at hv
      cases hv
      show 0 < a.c
      have h1 := hcond.1
      exact Nat.pos_of_ne_zero
        (fun h0 => by rw [h0, Nat.mul_zero] at h1; exact Nat.lt_irrefl 0 h1)
    · rw [Tensor4.view3, if_neg hcond] at hv
      exact Option.noConfusion hv
  exact softmaxDim1_col_sum e he av hc i k

/-- C3 witness: the column sum at the concrete unit-size module. -/
theorem attention_softmax_columns_sum_to_one_witness :
    ∑ j ∈ Finset.range tinyAv.c, (softmaxDim1 expOne tinyAv).data 0 j 0 = 1 :=
  attention_softmax_columns_sum_to_one expOne (fun _ => one_pos) tinyAG tinyX
    tinyReduce tinyAtt tinyAv rfl rfl rfl 0 0

/-- C4: for a 2048-channel input feature map, the forward computation of
the head's attention module (whose attention size is hard-coded to 3600
by `_PSAHead`) returns a tensor exactly when the feature map has
`H * W = 3600` spatial positions; for any other spatial size the batched
matrix multiplication is malformed and the computation fails. -/
theorem attention_bmm_wellformed_iff_3600 (e : ℚ → ℚ) (nclass : ℕ)
    (W : PSAHeadWeights) (x : Tensor4) (hc : x.c = 2048) (hn : 0 < x.n)
    (hh : 0 < x.h) (hw : 0 < x.w) :
    ((mkPSAHead nclass W).psa.collect_attention.forward e x).isSome ↔
      x.h * x.w = 3600 := by
  have hpc : (mkPSAHead nclass W).psa.collect_attention =
    mkAttentionGeneration 2048 512 3600 W.collect := rfl
  rw [hpc]
  by_cases hhw : x.h * x.w = 3600
  · obtain ⟨t, ht, -⟩ :=
      ag_forward_some e 2048 512 3600 W.collect x hc hn (by norm_num) hh hw hhw
    exact iff_of_true (by rw [ht]; rfl) hhw
  · have hnone := ag_forward_none e 2048 512 3600 W.collect x hc hn (by norm_num)
      (by norm_num) hh hw hhw
    exact iff_of_false (by rw [hnone]; simp) hhw

/-- C4 witness: at the `(1, 2048, 60, 60)` feature map the equivalence
instantiates to a true acceptance. -/
theorem attention_bmm_wellformed_iff_3600_witness :
    ((mkPSAHead 1 zeroHeadW).psa.collect_attention.forward expOne feat60).isSome ↔
      feat60.h * feat60.w = 3600 :=
  attention_bmm_wellformed_iff_3600 expOne 1 zeroHeadW feat60 rfl (by decide)
    (by decide) (by decide)

/-- C5: on a 2048-channel input of matching spatial size, the pointwise
spatial attention runs its two `_AttentionGeneration` modules
independently on the same input and concatenates their outputs along
channels to a `(N, 2 * 512, H, W)` map; the collect and distribute
instances are built from disjoint weight bundles, so neither's parameters
depend on the other's. -/
theorem pointwise_spatial_attention_concat_independent (e : ℚ → ℚ) (oc : ℕ)
    (wc wd : AGWeights) (x : Tensor4) (hc : x.c = 2048) (hn : 0 < x.n)
    (hh : 0 < x.h) (hw : 0 < x.w) (hhw : x.h * x.w = oc) :
    (∃ t cf df,
      (mkPointwiseSpatialAttention 2048 oc wc wd).collect_attention.forward e x =
        some cf ∧
      (mkPointwiseSpatialAttention 2048 oc wc wd).distribute_attention.forward e x =
        some df ∧
      cat4 cf df = some t ∧
      (mkPointwiseSpatialAttention 2048 oc wc wd).forward e x = some t ∧
      t.n = x.n ∧ t.c = 2 * 512 ∧ t.h = x.h ∧ t.w = x.w) ∧
    (∀ wd', (mkPointwiseSpatialAttention 2048 oc wc wd').collect_attention =
      (mkPointwiseSpatialAttention 2048 oc wc wd).collect_attention) ∧
    (∀ wc', (mkPointwiseSpatialAttention 2048 oc wc' wd).distribute_attention =
      (mkPointwiseSpatialAttention 2048 oc wc wd).distribute_attention) := by
  refine ⟨?_, fun wd' => rfl, fun wc' => rfl⟩
  obtain ⟨t, cf, df, h1, h2, h3, h4, h5, h6, h7, h8⟩ :=
    psa_forward_eq e 2048 oc wc wd x hc hn hh hw hhw
  exact ⟨t, cf, df, h1, h2, h3, h4, h5, by rw [h6], h7, h8⟩

/-- C5 witness: the statement instantiated at the `(1, 2048, 60, 60)`
feature map with the attention size 3600. -/
theorem pointwise_spatial_attention_concat_independent_witness :
    (∃ t cf df,
      (mkPointwiseSpatialAttention 2048 3600 zeroAGW zeroAGW).collect_attention.forward
        expOne feat60 = some cf ∧
      (mkPointwiseSpatialAttention 2048 3600 zeroAGW zeroAGW).distribute_attention.forward
        expOne feat60 = some df ∧
      cat4 cf df = some t ∧
      (mkPointwiseSpatialAttention 2048 3600 zeroAGW zeroAGW).forward expOne feat60 =
        some t ∧
      t.n = feat60.n ∧ t.c = 2 * 512 ∧ t.h = feat60.h ∧ t.w = feat60.w) ∧
    (∀ wd', (mkPointwiseSpatialAttention 2048 3600 zeroAGW wd').collect_attention =
      (mkPointwiseSpatialAttention 2048 3600 zeroAGW zeroAGW).collect_attention) ∧
    (∀ wc', (mkPointwiseSpatialAttention 2048 3600 wc' zeroAGW).distribute_attention =
      (mkPointwiseSpatialAttention 2048 3600 zeroAGW zeroAGW).distribute_attention) :=
  pointwise_spatial_attention_concat_independent expOne 3600 zeroAGW zeroAGW feat60
    rfl (by decide) (by decide) (by decide) (by decide)

/-- C6: on the 2048-channel backbone feature map of matching spatial
size, `_PSAHead.forward` computes the pointwise spatial attention output,
fuses it back to 2048 channels, concatenates with the original input to
2048 + 2048 channels, projects through the 3x3 convolution to 512
channels, applies (inference-mode) dropout, and finishes with the 1x1
convolution to `nclass` channels. -/
theorem psa_head_stage_structure (e : ℚ → ℚ) (nclass : ℕ) (W : PSAHeadWeights)
    (x : Tensor4) (hc : x.c = 2048) (hn : 0 < x.n) (hh : 0 < x.h) (hw : 0 < x.w)
    (hhw : x.h * x.w = 3600) :
    ∃ g fused cc pj t,
      (mkPSAHead nclass W).psa.forward e x = some g ∧ g.c = 512 + 512 ∧
      (mkPSAHead nclass W).conv_post.apply g = some fused ∧ fused.c = 2048 ∧
      cat4 x fused = some cc ∧ cc.c = 2048 + 2048 ∧
      (mkPSAHead nclass W).project1.apply cc = some pj ∧ pj.c = 512 ∧
      (mkPSAHead nclass W).project2.apply (dropout2d pj) = some t ∧
      (mkPSAHead nclass W).forward e x = some t ∧
      t.n = x.n ∧ t.c = nclass ∧ t.h = x.h ∧ t.w = x.w :=
  psa_head_forward_eq e nclass W x hc hn hh hw hhw

/-- C6 witness: the head stage structure at the `(1, 2048, 60, 60)`
feature map with one output class. -/
theorem psa_head_stage_structure_witness :
    ∃ g fused cc pj t,
      (mkPSAHead 1 zeroHeadW).psa.forward expOne feat60 = some g ∧ g.c = 512 + 512 ∧
      (mkPSAHead 1 zeroHeadW).conv_post.apply g = some fused ∧ fused.c = 2048 ∧
      cat4 feat60 fused = some cc ∧ cc.c = 2048 + 2048 ∧
      (mkPSAHead 1 zeroHeadW).project1.apply cc = some pj ∧ pj.c = 512 ∧
      (mkPSAHead 1 zeroHeadW).project2.apply (dropout2d pj) = some t ∧
      (mkPSAHead 1 zeroHeadW).forward expOne feat60 = some t ∧
      t.n = feat60.n ∧ t.c = 1 ∧ t.h = feat60.h ∧ t.w = feat60.w :=
  psa_head_stage_structure expOne 1 zeroHeadW feat60 rfl (by decide) (by decide)
    (by decide) (by decide)

/-- C7: `PSANet.forward` applies the head to c4 and upsamples the result
to the recorded input size with aligned-corners bilinear interpolation;
with the auxiliary flag set it additionally applies the auxiliary head to
c3, upsamples it likewise, and returns the ordered pair, while with the
flag clear it returns the single primary tensor. -/
theorem psanet_forward_aux_branches (e : ℚ → ℚ)
    (base : Tensor4 → Tensor4 × Tensor4 × Tensor4 × Tensor4) (head : PSAHead)
    (auxl : Tensor4 → Option Tensor4) (x p : Tensor4)
    (hp : head.forward e ((base x).2.2.2) = some p) :
    (∀ a, auxl ((base x).2.2.1) = some a →
      (PSANet.mk true base head auxl).forward e x =
        some (PSAOutput.pair (interpolate p x.h x.w) (interpolate a x.h x.w))) ∧
    (PSANet.mk false base head auxl).forward e x =
      some (PSAOutput.single (interpolate p x.h x.w)) := by
  constructor
  · intro a hA
    have hB : (PSANet.mk true base head auxl).base_forward = base := rfl
    have hH : (PSANet.mk true base head auxl).head = head := rfl
    have hX : (PSANet.mk true base head auxl).aux = true := rfl
    have hL : (PSANet.mk true base head auxl).auxlayer = auxl := rfl
    simp only [PSANet.forward, hB, hH, hX, hL, hp, Option.some_bind]
    rw [if_pos trivial, hA]
    simp only [Option.some_bind]
  · have hB : (PSANet.mk false base head auxl).base_forward = base := rfl
    have hH : (PSANet.mk false base head auxl).head = head := rfl
    have hX : (PSANet.mk false base head auxl).aux = false := rfl
    simp only [PSANet.forward, hB, hH, hX, hp, Option.some_bind]
    rw [if_neg Bool.false_ne_true]

/-- C7 witness: both branches at the concrete small model. -/
theorem psanet_forward_aux_branches_witness :
    (∀ a, (fun t => some t : Tensor4 → Option Tensor4) ((tinyBase tinyX).2.2.1) =
        some a →
      tinyNetTrue.forward expOne tinyX =
        some (PSAOutput.pair (interpolate tinyP tinyX.h tinyX.w)
          (interpolate a tinyX.h tinyX.w))) ∧
    tinyNetFalse.forward expOne tinyX =
      some (PSAOutput.single (interpolate tinyP tinyX.h tinyX.w)) :=
  psanet_forward_aux_branches expOne tinyBase tinyHead (fun t => some t) tinyX tinyP
    rfl

/-- C8: for fixed shared weights and input, the primary tensor of the
auxiliary-enabled network equals the output of the auxiliary-disabled
network; the flag only switches the result between a pair and a single
tensor. -/
theorem psanet_aux_primary_unchanged (e : ℚ → ℚ)
    (base : Tensor4 → Tensor4 × Tensor4 × Tensor4 × Tensor4) (head : PSAHead)
    (auxl : Tensor4 → Option Tensor4) (x p a : Tensor4)
    (h : (PSANet.mk true base head auxl).forward e x =
      some (PSAOutput.pair p a)) :
    (PSANet.mk false base head auxl).forward e x =
      some (PSAOutput.single p) := by
  have hB : (PSANet.mk true base head auxl).base_forward = base := rfl
  have hH : (PSANet.mk true base head auxl).head = head := rfl
  have hX : (PSANet.mk true base head auxl).aux = true := rfl
  have hL : (PSANet.mk true base head auxl).auxlayer = auxl := rfl
  have hB2 : (PSANet.mk false base head auxl).base_forward = base := rfl
  have hH2 : (PSANet.mk false base head auxl).head = head := rfl
  have hX2 : (PSANet.mk false base head auxl).aux = false := rfl
  simp only [PSANet.forward, hB, hH, hX, hL] at h
  cases hhp : head.forward e ((base x).2.2.2) with
  | none =>
    rw [hhp] at h
    simp at h
  | some hp =>
    rw [hhp] at h
    simp only [Option.some_bind] at h
    rw [if_pos trivial] at h
    cases hha : auxl ((base x).2.2.1) with
    | none =>
      rw [hha] at h
      simp at h
    | some a0 =>
      rw [hha] at h
      simp only [Option.some_bind, Option.some.injEq, PSAOutput.pair.injEq] at h
      simp only [PSANet.forward, hB2, hH2, hX2, hhp, Option.some_bind]
      rw [if_neg Bool.false_ne_true, h.1]

/-- C8 witness: the implication at the concrete small model. -/
theorem psanet_aux_primary_unchanged_witness :
    tinyNetFalse.forward expOne tinyX =
      some (PSAOutput.single (interpolate tinyP tinyX.h tinyX.w)) :=
  psanet_aux_primary_unchanged expOne tinyBase tinyHead (fun t => some t) tinyX
    (interpolate tinyP tinyX.h tinyX.w) (interpolate tinyX tinyX.h tinyX.w) rfl

/-- C9: a forward pass is a pure function of the exponential model, the
learned weights and the input: identical weights and identical input give
identical output (inference mode has no randomness: dropout is the
identity and normalization uses fixed statistics). -/
theorem psanet_forward_deterministic (f g : ℚ → ℚ) (m1 m2 : PSANet)
    (x1 x2 : Tensor4) (he : f = g) (hm : m1 = m2) (hx : x1 = x2) :
    m1.forward f x1 = m2.forward g x2 := by
  subst he; subst hm; subst hx; rfl

/-- C9 witness: determinism at the concrete small model. -/
theorem psanet_forward_deterministic_witness :
    tinyNetFalse.forward expOne tinyX = tinyNetFalse.forward expOne tinyX :=
  psanet_forward_deterministic expOne expOne tinyNetFalse tinyNetFalse tinyX tinyX
    rfl rfl rfl
